import Mathlib

/-
Verification of the tautology-based SQL injection detector of the
kasuganosora/sqlexec repository.

The repository ships maintenance scripts that patch two Go files of a larger
project: `memory_source.go` (which holds the constant comparator
`compareEqual`) and `sql_injection_parser.go` (which holds the tautology
detector).  The detection block itself is present verbatim inside
`fix_parser.py` as the text that the patch writes into
`sql_injection_parser.go`; that block is embedded here directly.  The
comparator and the recursive condition evaluation are not present in the
repository and are modelled from the specification.
-/

namespace SqlExec

/-- Modelled from the spec: the kind tags of a SQL constant literal
(`Integer|Float|String|Boolean|Null`).  The Go code carrying the concrete
tagged union lives in `memory_source.go`, which is absent from the
repository. -/
inductive ValueKind where
  | Integer
  | Float
  | String
  | Boolean
  | Null
  deriving DecidableEq, Repr

/-- Modelled from the spec: `ConstantValue`, a tagged union representing a SQL
literal `{ kind, payload }`.  Floating literal payloads are modelled as exact
rationals, so the promotion of an integer to floating representation is exact,
matching the spec remark that these are constant literals compared with exact
equality and no epsilon tolerance. -/
inductive ConstantValue where
  | Integer (i : Int)
  | Float (f : Rat)
  | String (s : String)
  | Boolean (b : Bool)
  | Null
  deriving DecidableEq, Repr

/-- The kind tag of a constant value. -/
def ConstantValue.kind : ConstantValue → ValueKind
  | .Integer _ => .Integer
  | .Float _ => .Float
  | .String _ => .String
  | .Boolean _ => .Boolean
  | .Null => .Null

/-- Modelled from the spec: `ComparisonResult`, the ternary outcome of
comparing two constant values. -/
inductive ComparisonResult where
  | Equal
  | NotEqual
  | Incomparable
  deriving DecidableEq, Repr

/-- Modelled from the spec: `compareEqual(a, b)`, the type-aware constant
equality comparator of `memory_source.go` (absent from the repository).
Rules in order of precedence: null semantics first (`Null` vs `Null` is
`Incomparable`, `Null` vs a concrete value is `NotEqual`), then same-kind
payload equality, then `Integer`/`Float` numeric coercion with exact
equality, then `Incomparable` for every other pairing. -/
def compareEqual : ConstantValue → ConstantValue → ComparisonResult
  | .Null, .Null => .Incomparable
  | .Null, _ => .NotEqual
  | _, .Null => .NotEqual
  | .Integer a, .Integer b => if a = b then .Equal else .NotEqual
  | .Float a, .Float b => if a = b then .Equal else .NotEqual
  | .String a, .String b => if a = b then .Equal else .NotEqual
  | .Boolean a, .Boolean b => if a = b then .Equal else .NotEqual
  | .Integer a, .Float b => if (a : Rat) = b then .Equal else .NotEqual
  | .Float a, .Integer b => if a = (b : Rat) then .Equal else .NotEqual
  | _, _ => .Incomparable

/-- Modelled from the spec: the comparison operators of a `WHERE` condition. -/
inductive CompOp where
  | Equals
  | NotEquals
  | Lt
  | Gt
  | Le
  | Ge
  deriving DecidableEq, Repr

/-- Modelled from the spec: the logical connectives of a `WHERE` condition. -/
inductive LogicalOp where
  | AND
  | OR
  deriving DecidableEq, Repr

/-- Modelled from the spec: `ConditionExpr`, the WHERE-clause expression tree
produced by the external SQL parser. -/
inductive ConditionExpr where
  | Comparison (op : CompOp) (left right : ConditionExpr)
  | Logical (op : LogicalOp) (operands : List ConditionExpr)
  | Not (operand : ConditionExpr)
  | ColumnRef (name : String)
  | Literal (value : ConstantValue)
  | Paren (inner : ConditionExpr)

/-- Modelled from the spec: the three-valued verdict of the recursive
condition evaluation (`AlwaysTrue | AlwaysFalse | DependsOnData`). -/
inductive TriValue where
  | AlwaysTrue
  | AlwaysFalse
  | DependsOnData
  deriving DecidableEq, Repr

/-- Modelled from the spec: `Not{operand}` inverts `AlwaysTrue`/`AlwaysFalse`
and propagates `DependsOnData`. -/
def triNegate : TriValue → TriValue
  | .AlwaysTrue => .AlwaysFalse
  | .AlwaysFalse => .AlwaysTrue
  | .DependsOnData => .DependsOnData

/-- Modelled from the spec: mapping a comparator outcome to the three-valued
verdict for `op = Equals`: `Equal` is `AlwaysTrue`, `NotEqual` is
`AlwaysFalse`, `Incomparable` is `DependsOnData` (never guess). -/
def ofComparisonResult : ComparisonResult → TriValue
  | .Equal => .AlwaysTrue
  | .NotEqual => .AlwaysFalse
  | .Incomparable => .DependsOnData

/-- Modelled from the spec: the numeric payload of a constant, when it is a
literal numeric constant (`Integer` or `Float`). -/
def numericRat : ConstantValue → Option Rat
  | .Integer i => (i : Rat)
  | .Float f => f
  | _ => none

/-- Modelled from the spec: relational operators (`<, >, <=, >=`) are only
resolved when both sides are literal numeric constants, using ordinary
numeric ordering; otherwise `DependsOnData`. -/
def evalNumericRel (op : CompOp) (a b : ConstantValue) : TriValue :=
  match numericRat a, numericRat b with
  | some x, some y =>
    match op with
    | .Lt => if x < y then .AlwaysTrue else .AlwaysFalse
    | .Gt => if y < x then .AlwaysTrue else .AlwaysFalse
    | .Le => if x ≤ y then .AlwaysTrue else .AlwaysFalse
    | .Ge => if y ≤ x then .AlwaysTrue else .AlwaysFalse
    | _ => .DependsOnData
  | _, _ => .DependsOnData

/-- Modelled from the spec: evaluation of a `Comparison{op, left, right}`
node.  Both operands must reduce to a `ConstantValue`: either each is a
`Literal`, or, conservatively, a `ColumnRef` compared to itself by identical
name on both sides (the canonical `x = x` pattern).  A column with no
constant counterpart yields `DependsOnData`. -/
def evalComparison (op : CompOp) (l r : ConditionExpr) : TriValue :=
  match l, r with
  | .ColumnRef n, .ColumnRef m =>
    if n = m then
      match op with
      | .Equals => .AlwaysTrue
      | .NotEquals => .AlwaysFalse
      | _ => .DependsOnData
    else .DependsOnData
  | .Literal a, .Literal b =>
    match op with
    | .Equals => ofComparisonResult (compareEqual a b)
    | .NotEquals => triNegate (ofComparisonResult (compareEqual a b))
    | rel => evalNumericRel rel a b
  | _, _ => .DependsOnData

/-- Modelled from the spec: `Logical{AND, operands}` is `AlwaysFalse` if any
operand is `AlwaysFalse`, `AlwaysTrue` only if all operands are `AlwaysTrue`,
and otherwise `DependsOnData`. -/
def andFold (rs : List TriValue) : TriValue :=
  if .AlwaysFalse ∈ rs then .AlwaysFalse
  else if ∀ t ∈ rs, t = .AlwaysTrue then .AlwaysTrue
  else .DependsOnData

/-- Modelled from the spec: `Logical{OR, operands}` is `AlwaysTrue` if any
operand is `AlwaysTrue`, `AlwaysFalse` only if all operands are
`AlwaysFalse`, and otherwise `DependsOnData`. -/
def orFold (rs : List TriValue) : TriValue :=
  if .AlwaysTrue ∈ rs then .AlwaysTrue
  else if ∀ t ∈ rs, t = .AlwaysFalse then .AlwaysFalse
  else .DependsOnData

mutual

/-- Modelled from the spec: the recursive three-valued evaluation of a
`ConditionExpr`.  Boolean literals decide immediately, comparisons go through
`evalComparison`, logical nodes fold their operand verdicts, `Not` inverts,
`Paren` is transparent, and a bare `ColumnRef` or any other literal is
`DependsOnData` (conservative). -/
def evalCondition : ConditionExpr → TriValue
  | .Literal (.Boolean true) => .AlwaysTrue
  | .Literal (.Boolean false) => .AlwaysFalse
  | .Literal _ => .DependsOnData
  | .Comparison op l r => evalComparison op l r
  | .Logical .AND ops => andFold (evalOperands ops)
  | .Logical .OR ops => orFold (evalOperands ops)
  | .Not e => triNegate (evalCondition e)
  | .Paren e => evalCondition e
  | .ColumnRef _ => .DependsOnData

/-- Modelled from the spec: evaluation of each operand of a logical node. -/
def evalOperands : List ConditionExpr → List TriValue
  | [] => []
  | e :: es => evalCondition e :: evalOperands es

end

/-- Modelled from the spec: the clause is a tautology iff the root reduces to
`AlwaysTrue`.  This is the pure sub-routine `isTautologyCondition` called by
the detection block in `sql_injection_parser.go`. -/
def isTautologyCondition (e : ConditionExpr) : Bool :=
  decide (evalCondition e = .AlwaysTrue)

/-- `InjectionDetail`, the finding record of `sql_injection_parser.go` with
the fields `Pattern`, `Position`, `Length`, `Fragment`, as built by the
detection block written into that file by `fix_parser.py`. -/
structure InjectionDetail where
  Pattern : String
  Position : Nat
  Length : Nat
  Fragment : String
  deriving DecidableEq, Repr

/-- `DetectionResult`, the caller-owned aggregate mutated in place by the
detector: an `IsDetected` flag and an ordered `Details` sequence. -/
structure DetectionResult where
  IsDetected : Bool
  Details : List InjectionDetail
  deriving DecidableEq, Repr

/-- Modelled from the spec: the `WHERE` clause node of a parsed statement.
The external parser exposes, for any node, its original source text
(`OriginalText()`) and its start offset in the original source
(`OriginTextPosition()`); the clause also carries its condition tree. -/
structure WhereClause where
  cond : ConditionExpr
  OriginalText : String
  OriginTextPosition : Nat

/-- Modelled from the spec: a `ParsedStatement` as the detection block sees
it — an optional `WHERE` clause (`stmt.Where`, nil when the statement has no
filter) and the statement node's own start offset in the original source
(`stmt.OriginTextPosition()`). -/
structure ParsedStatement where
  Where : Option WhereClause
  OriginTextPosition : Nat

/-- The `whereText` computation of the detection block in `fix_parser.py`:
`whereText := stmt.Where.OriginalText()`, replaced by the fixed placeholder
when it is the empty string. -/
def whereTextOf (w : WhereClause) : String :=
  if w.OriginalText = "" then "WHERE clause with tautology condition"
  else w.OriginalText

/-- The `InjectionDetail` literal built by the detection block: `Pattern` is
the fixed tag, `Position` is `stmt.OriginTextPosition()`, `Length` is the Go
`len(whereText)` (the UTF-8 byte count of the string), `Fragment` is
`whereText`. -/
def detailFor (stmt : ParsedStatement) (w : WhereClause) : InjectionDetail :=
  { Pattern := "tautology_injection"
    Position := stmt.OriginTextPosition
    Length := (whereTextOf w).utf8ByteSize
    Fragment := whereTextOf w }

/-- The detection block of `analyzeSelectStmt` as written into
`sql_injection_parser.go` by `fix_parser.py`: when the statement has a
`WHERE` clause and `isTautologyCondition` holds on it, set
`result.IsDetected = true` and append one `InjectionDetail`; otherwise leave
the caller's result untouched.  A nil `WHERE` clause short-circuits to no
side effects. -/
def analyzeSelectStmt (stmt : ParsedStatement) (result : DetectionResult) :
    DetectionResult :=
  match stmt.Where with
  | none => result
  | some w =>
    if isTautologyCondition w.cond then
      { IsDetected := true
        Details := result.Details ++ [detailFor stmt w] }
    else result

/-- The condition `1=1`. -/
def oneEqOne : ConditionExpr :=
  .Comparison .Equals (.Literal (.Integer 1)) (.Literal (.Integer 1))

/-- The condition `age > 18`. -/
def ageGt18 : ConditionExpr :=
  .Comparison .Gt (.ColumnRef "age") (.Literal (.Integer 18))

/-- The condition `status = 'x'` (a column against a string literal). -/
def statusEqX : ConditionExpr :=
  .Comparison .Equals (.ColumnRef "status") (.Literal (.String "x"))

/-- The condition `1=1 AND age > 18`. -/
def andDependentExample : ConditionExpr := .Logical .AND [oneEqOne, ageGt18]

/-- The condition `status = 'x' OR 1=1`. -/
def orShortCircuitExample : ConditionExpr := .Logical .OR [statusEqX, oneEqOne]

/-- A fresh caller result: flag unset, no details. -/
def emptyDetectionResult : DetectionResult :=
  { IsDetected := false, Details := [] }

/-- A statement with no filter clause. -/
def noWhereStmt : ParsedStatement := { Where := none, OriginTextPosition := 0 }

/-- A statement carrying the clause `1=1 AND age > 18`. -/
def andStmt : ParsedStatement :=
  { Where := some { cond := andDependentExample,
                    OriginalText := "1=1 AND age > 18",
                    OriginTextPosition := 30 }
    OriginTextPosition := 0 }

/-- A statement carrying the clause `status = 'x' OR 1=1`. -/
def orStmt : ParsedStatement :=
  { Where := some { cond := orShortCircuitExample,
                    OriginalText := "status = x OR 1=1",
                    OriginTextPosition := 26 }
    OriginTextPosition := 0 }

/-- Evaluating the operand list is mapping the evaluator over it. -/
theorem evalOperands_eq_map (ops : List ConditionExpr) :
    evalOperands ops = ops.map evalCondition := by
  induction ops with
  | nil => rfl
  | cons e es ih => simp [evalOperands, ih]

/-- `andFold` yields `AlwaysFalse` exactly when some entry is `AlwaysFalse`. -/
theorem andFold_eq_false_iff (rs : List TriValue) :
    andFold rs = .AlwaysFalse ↔ .AlwaysFalse ∈ rs := by
  unfold andFold
  split_ifs with h1 h2 <;> simp_all

/-- `andFold` yields `AlwaysTrue` exactly when every entry is `AlwaysTrue`. -/
theorem andFold_eq_true_iff (rs : List TriValue) :
    andFold rs = .AlwaysTrue ↔ ∀ t ∈ rs, t = .AlwaysTrue := by
  unfold andFold
  split_ifs with h1 h2
  · exact iff_of_false (by simp) (fun hall => absurd (hall _ h1) (by simp))
  · exact iff_of_true rfl h2
  · exact iff_of_false (by simp) h2

/-- `orFold` yields `AlwaysTrue` exactly when some entry is `AlwaysTrue`. -/
theorem orFold_eq_true_iff (rs : List TriValue) :
    orFold rs = .AlwaysTrue ↔ .AlwaysTrue ∈ rs := by
  unfold orFold
  split_ifs with h1 h2 <;> simp_all

/-- `orFold` yields `AlwaysFalse` exactly when every entry is `AlwaysFalse`. -/
theorem orFold_eq_false_iff (rs : List TriValue) :
    orFold rs = .AlwaysFalse ↔ ∀ t ∈ rs, t = .AlwaysFalse := by
  unfold orFold
  split_ifs with h1 h2
  · exact iff_of_false (by simp) (fun hall => absurd (hall _ h1) (by simp))
  · exact iff_of_true rfl h2
  · exact iff_of_false (by simp) h2

/-- A three-valued verdict is `DependsOnData` exactly when it is neither of
the two decided verdicts. -/
theorem tri_eq_depends_iff (t : TriValue) :
    t = .DependsOnData ↔ ¬ t = .AlwaysFalse ∧ ¬ t = .AlwaysTrue := by
  cases t <;> simp

/-- An `AND` node evaluates by folding the evaluated operands. -/
theorem evalCondition_and (ops : List ConditionExpr) :
    evalCondition (.Logical .AND ops) = andFold (ops.map evalCondition) := by
  simp [evalCondition, evalOperands_eq_map]

/-- An `OR` node evaluates by folding the evaluated operands. -/
theorem evalCondition_or (ops : List ConditionExpr) :
    evalCondition (.Logical .OR ops) = orFold (ops.map evalCondition) := by
  simp [evalCondition, evalOperands_eq_map]

/-- C1: a `Logical{AND}` node is `AlwaysFalse` iff some operand is
`AlwaysFalse`, `AlwaysTrue` iff all operands are `AlwaysTrue`, and
`DependsOnData` otherwise; a `Logical{OR}` node is `AlwaysTrue` iff some
operand is `AlwaysTrue`, `AlwaysFalse` iff all operands are `AlwaysFalse`,
and `DependsOnData` otherwise; the clause is classified a tautology exactly
when the root evaluates to `AlwaysTrue`; consequently `1=1 AND age > 18` is
not detected while `status = 'x' OR 1=1` is. -/
theorem logical_eval_and_tautology_classification :
    (∀ ops : List ConditionExpr,
        (evalCondition (.Logical .AND ops) = .AlwaysFalse ↔
          ∃ e ∈ ops, evalCondition e = .AlwaysFalse)
      ∧ (evalCondition (.Logical .AND ops) = .AlwaysTrue ↔
          ∀ e ∈ ops, evalCondition e = .AlwaysTrue)
      ∧ (evalCondition (.Logical .AND ops) = .DependsOnData ↔
          (¬ ∃ e ∈ ops, evalCondition e = .AlwaysFalse) ∧
          ¬ ∀ e ∈ ops, evalCondition e = .AlwaysTrue))
  ∧ (∀ ops : List ConditionExpr,
        (evalCondition (.Logical .OR ops) = .AlwaysTrue ↔
          ∃ e ∈ ops, evalCondition e = .AlwaysTrue)
      ∧ (evalCondition (.Logical .OR ops) = .AlwaysFalse ↔
          ∀ e ∈ ops, evalCondition e = .AlwaysFalse)
      ∧ (evalCondition (.Logical .OR ops) = .DependsOnData ↔
          (¬ ∃ e ∈ ops, evalCondition e = .AlwaysTrue) ∧
          ¬ ∀ e ∈ ops, evalCondition e = .AlwaysFalse))
  ∧ (∀ e : ConditionExpr, isTautologyCondition e = true ↔
      evalCondition e = .AlwaysTrue)
  ∧ evalCondition andDependentExample = .DependsOnData
  ∧ evalCondition orShortCircuitExample = .AlwaysTrue
  ∧ (analyzeSelectStmt andStmt emptyDetectionResult).IsDetected = false
  ∧ (analyzeSelectStmt orStmt emptyDetectionResult).IsDetected = true := by
  refine ⟨?_, ?_, ?_, by decide, by decide, by decide, by decide⟩
  · intro ops
    rw [evalCondition_and]
    have hf := andFold_eq_false_iff (ops.map evalCondition)
    have ht := andFold_eq_true_iff (ops.map evalCondition)
    have hfm : andFold (ops.map evalCondition) = .AlwaysFalse ↔
        ∃ e ∈ ops, evalCondition e = .AlwaysFalse := by
      rw [hf]; simp [List.mem_map]
    have htm : andFold (ops.map evalCondition) = .AlwaysTrue ↔
        ∀ e ∈ ops, evalCondition e = .AlwaysTrue := by
      rw [ht]; simp
    refine ⟨hfm, htm, ?_⟩
    rw [tri_eq_depends_iff, hfm, htm]
  · intro ops
    rw [evalCondition_or]
    have hf := orFold_eq_true_iff (ops.map evalCondition)
    have ht := orFold_eq_false_iff (ops.map evalCondition)
    have hfm : orFold (ops.map evalCondition) = .AlwaysTrue ↔
        ∃ e ∈ ops, evalCondition e = .AlwaysTrue := by
      rw [hf]; simp [List.mem_map]
    have htm : orFold (ops.map evalCondition) = .AlwaysFalse ↔
        ∀ e ∈ ops, evalCondition e = .AlwaysFalse := by
      rw [ht]; simp
    refine ⟨hfm, htm, ?_⟩
    rw [tri_eq_depends_iff, hfm, htm]
    exact and_comm
  · intro e
    simp [isTautologyCondition]

/-- C6: comparing `Null` with `Null` is `Incomparable`; comparing `Null` with
any concretely typed non-null value, in either order, is `NotEqual`; a
comparison involving `Null` is never `Equal`. -/
theorem compareEqual_null_semantics :
    compareEqual .Null .Null = .Incomparable
  ∧ (∀ v : ConstantValue, v ≠ .Null →
      compareEqual .Null v = .NotEqual ∧ compareEqual v .Null = .NotEqual)
  ∧ (∀ v : ConstantValue,
      compareEqual .Null v ≠ .Equal ∧ compareEqual v .Null ≠ .Equal) := by
  refine ⟨rfl, ?_, ?_⟩
  · intro v hv
    cases v <;> simp_all [compareEqual]
  · intro v
    cases v <;> simp [compareEqual]

/-- Witness for C6 at `v = Integer 5`. -/
theorem compareEqual_null_semantics_witness :
    compareEqual .Null (.Integer 5) = .NotEqual
  ∧ compareEqual (.Integer 5) .Null = .NotEqual :=
  compareEqual_null_semantics.2.1 (.Integer 5) (by decide)

/-- C7: mixed `Integer`/`Float` comparison, in either argument order,
promotes the integer and compares with exact numeric equality: the result is
`Equal` exactly when the promoted values coincide, `NotEqual` exactly when
they differ; in particular `compareEqual(Integer 3, Float 3.0) = Equal` and
`compareEqual(Integer 3, Float 3.1) = NotEqual`. -/
theorem compareEqual_numeric_coercion :
    (∀ (i : Int) (f : Rat),
        (compareEqual (.Integer i) (.Float f) = .Equal ↔ (i : Rat) = f)
      ∧ (compareEqual (.Integer i) (.Float f) = .NotEqual ↔ ¬ (i : Rat) = f)
      ∧ compareEqual (.Float f) (.Integer i) = compareEqual (.Integer i) (.Float f))
  ∧ compareEqual (.Integer 3) (.Float 3) = .Equal
  ∧ compareEqual (.Integer 3) (.Float (mkRat 31 10)) = .NotEqual := by
  refine ⟨?_, by decide, by decide⟩
  intro i f
  refine ⟨?_, ?_, ?_⟩
  · simp only [compareEqual]
    split_ifs with h <;> simp_all
  · simp only [compareEqual]
    split_ifs with h <;> simp_all
  · simp only [compareEqual]
    simp [eq_comm]

/-- C9: the comparator is symmetric in its two arguments. -/
theorem compareEqual_symmetric :
    ∀ a b : ConstantValue, compareEqual a b = compareEqual b a := by
  intro a b
  cases a <;> cases b <;> simp [compareEqual, eq_comm]

/-- C8: two non-null constants of differing kinds, other than the
`Integer`/`Float` pairing, compare `Incomparable` and in particular never
`Equal`. -/
theorem compareEqual_cross_type_incomparable (a b : ConstantValue)
    (ha : a.kind ≠ ValueKind.Null) (hb : b.kind ≠ ValueKind.Null)
    (hk : a.kind ≠ b.kind)
    (hif : ¬ (a.kind = ValueKind.Integer ∧ b.kind = ValueKind.Float))
    (hfi : ¬ (a.kind = ValueKind.Float ∧ b.kind = ValueKind.Integer)) :
    compareEqual a b = .Incomparable ∧ compareEqual a b ≠ .Equal := by
  cases a <;> cases b <;> simp_all [compareEqual, ConstantValue.kind]

/-- Witness for C8 at `String "1"` versus `Integer 1`. -/
theorem compareEqual_cross_type_incomparable_witness :
    compareEqual (.String "1") (.Integer 1) = .Incomparable
  ∧ compareEqual (.String "1") (.Integer 1) ≠ .Equal :=
  compareEqual_cross_type_incomparable (.String "1") (.Integer 1)
    (by decide) (by decide) (by decide) (by decide) (by decide)

/-- A caller-supplied result that already violates the flag/details
invariant: the flag is set but no detail is recorded. -/
def corruptResult : DetectionResult := { IsDetected := true, Details := [] }

/-- The shape of the detection block on a statement with a `WHERE` clause:
when the clause is a tautology the result is the flag plus one appended
detail, otherwise the caller's result is returned untouched. -/
theorem analyzeSelectStmt_some (w : WhereClause) (stmt : ParsedStatement)
    (r : DetectionResult) (hs : stmt.Where = some w) :
    analyzeSelectStmt stmt r =
      (if isTautologyCondition w.cond then
        { IsDetected := true, Details := r.Details ++ [detailFor stmt w] }
      else r) := by
  simp [analyzeSelectStmt, hs]

/-- The detection block leaves a statement without filter untouched. -/
theorem analyzeSelectStmt_none (stmt : ParsedStatement) (r : DetectionResult)
    (hs : stmt.Where = none) : analyzeSelectStmt stmt r = r := by
  simp [analyzeSelectStmt, hs]

/-- C2 counterexample: the flag/details equivalence does not hold after every
run on every caller-supplied result — a result that starts with the flag set
and no details is returned unchanged when nothing is detected. -/
theorem detector_invariant_not_unconditional :
    ¬ ∀ (stmt : ParsedStatement) (r : DetectionResult),
        ((analyzeSelectStmt stmt r).IsDetected = true ↔
          (analyzeSelectStmt stmt r).Details ≠ []) := by
  intro h
  have hrun : analyzeSelectStmt noWhereStmt corruptResult = corruptResult :=
    analyzeSelectStmt_none noWhereStmt corruptResult rfl
  have h2 := (h noWhereStmt corruptResult).mp (by rw [hrun]; rfl)
  rw [hrun] at h2
  exact h2 rfl

/-- C2 amended: the detector preserves the invariant — whenever the
caller-supplied result satisfies `IsDetected = true` iff `Details` nonempty,
so does the result of the run; moreover the run either leaves the result
untouched or sets the flag and appends one detail in the same step, so the
core never sets one without the other. -/
theorem analyzeSelectStmt_preserves_invariant (stmt : ParsedStatement)
    (r : DetectionResult)
    (h : r.IsDetected = true ↔ r.Details ≠ []) :
    ((analyzeSelectStmt stmt r).IsDetected = true ↔
      (analyzeSelectStmt stmt r).Details ≠ [])
  ∧ (analyzeSelectStmt stmt r = r
     ∨ ((analyzeSelectStmt stmt r).IsDetected = true
        ∧ ∃ d, (analyzeSelectStmt stmt r).Details = r.Details ++ [d])) := by
  cases hs : stmt.Where with
  | none =>
    rw [analyzeSelectStmt_none stmt r hs]
    exact ⟨h, Or.inl rfl⟩
  | some w =>
    rw [analyzeSelectStmt_some w stmt r hs]
    by_cases ht : isTautologyCondition w.cond = true
    · exact ⟨by simp [ht], Or.inr ⟨by simp [ht], detailFor stmt w, by simp [ht]⟩⟩
    · simp only [ht, if_false]
      exact ⟨h, Or.inl rfl⟩

/-- Witness for the amended C2 at a fresh result and a statement with no
filter clause. -/
theorem analyzeSelectStmt_preserves_invariant_witness :
    ((analyzeSelectStmt noWhereStmt emptyDetectionResult).IsDetected = true ↔
      (analyzeSelectStmt noWhereStmt emptyDetectionResult).Details ≠ [])
  ∧ (analyzeSelectStmt noWhereStmt emptyDetectionResult = emptyDetectionResult
     ∨ ((analyzeSelectStmt noWhereStmt emptyDetectionResult).IsDetected = true
        ∧ ∃ d, (analyzeSelectStmt noWhereStmt emptyDetectionResult).Details =
            emptyDetectionResult.Details ++ [d])) :=
  analyzeSelectStmt_preserves_invariant noWhereStmt emptyDetectionResult
    (by decide)

/-- C3: every analyzed statement with a tautological `WHERE` clause appends
exactly one detail (and a non-tautological one appends none); in particular
`status = 'x' OR 1=1`, whose clause holds two tautological readings only as a
whole, produces exactly one detail. -/
theorem exactly_one_detail_per_statement :
    (∀ (w : WhereClause) (pos : Nat) (r : DetectionResult),
        (analyzeSelectStmt { Where := some w, OriginTextPosition := pos } r).Details.length =
          (if isTautologyCondition w.cond then r.Details.length + 1
           else r.Details.length))
  ∧ isTautologyCondition orShortCircuitExample = true
  ∧ (analyzeSelectStmt orStmt emptyDetectionResult).Details.length = 1 := by
  refine ⟨?_, by decide, by decide⟩
  intro w pos r
  rw [analyzeSelectStmt_some w { Where := some w, OriginTextPosition := pos } r rfl]
  by_cases ht : isTautologyCondition w.cond = true <;> simp [ht]

/-- A tautological `WHERE` clause (`1=1`) whose source span starts at
offset 21 of the original text. -/
def c4Where : WhereClause :=
  { cond := oneEqOne, OriginalText := "1=1", OriginTextPosition := 21 }

/-- A statement starting at offset 0 that carries `c4Where`. -/
def c4Stmt : ParsedStatement :=
  { Where := some c4Where, OriginTextPosition := 0 }

/-- C4 counterexample: for a statement starting at offset 0 whose `WHERE`
clause starts at offset 21, the appended detail carries `Position = 0` — the
statement's start offset, not the clause's. -/
theorem detail_position_not_clause_offset :
    (analyzeSelectStmt c4Stmt emptyDetectionResult).Details =
      [{ Pattern := "tautology_injection", Position := 0, Length := 3,
         Fragment := "1=1" }]
  ∧ c4Stmt.OriginTextPosition = 0
  ∧ c4Where.OriginTextPosition = 21
  ∧ (0 : Nat) ≠ 21 := by
  refine ⟨by decide, rfl, rfl, by decide⟩

/-- C4 amended: the `Position` of every detail appended by a run equals the
statement's origin text position (`stmt.OriginTextPosition()`), not the
`WHERE` clause's own start offset. -/
theorem detail_position_is_statement_offset (stmt : ParsedStatement)
    (r : DetectionResult) (d : InjectionDetail)
    (hd : d ∈ (analyzeSelectStmt stmt r).Details) (hnew : d ∉ r.Details) :
    d.Position = stmt.OriginTextPosition := by
  cases hs : stmt.Where with
  | none =>
    rw [analyzeSelectStmt_none stmt r hs] at hd
    exact absurd hd hnew
  | some w =>
    rw [analyzeSelectStmt_some w stmt r hs] at hd
    by_cases ht : isTautologyCondition w.cond = true
    · simp only [ht, if_true] at hd
      rcases List.mem_append.mp hd with h1 | h2
      · exact absurd h1 hnew
      · have hde : d = detailFor stmt w := by simpa using h2
        rw [hde]
        rfl
    · simp only [ht, if_false] at hd
      exact absurd hd hnew

/-- Witness for the amended C4 at the concrete statement `c4Stmt`. -/
theorem detail_position_is_statement_offset_witness :
    ({ Pattern := "tautology_injection", Position := 0, Length := 3,
       Fragment := "1=1" } : InjectionDetail).Position =
      c4Stmt.OriginTextPosition :=
  detail_position_is_statement_offset c4Stmt emptyDetectionResult
    { Pattern := "tautology_injection", Position := 0, Length := 3,
      Fragment := "1=1" }
    (by decide) (by decide)

/-- A tautological `WHERE` clause whose recovered source text holds
multi-byte characters: three characters, five UTF-8 bytes. -/
def c5Where : WhereClause :=
  { cond := oneEqOne, OriginalText := "α=α", OriginTextPosition := 7 }

/-- A statement carrying `c5Where`. -/
def c5Stmt : ParsedStatement :=
  { Where := some c5Where, OriginTextPosition := 3 }

/-- C5 counterexample: the appended detail's `Fragment` is the three
character string `α=α`, yet its `Length` is 5 — the Go `len` of the string,
a UTF-8 byte count, not a character count. -/
theorem detail_length_not_char_count :
    (analyzeSelectStmt c5Stmt emptyDetectionResult).Details =
      [{ Pattern := "tautology_injection", Position := 3, Length := 5,
         Fragment := "α=α" }]
  ∧ ("α=α" : String).length = 3
  ∧ (5 : Nat) ≠ 3 := by
  refine ⟨by decide, by decide, by decide⟩

/-- C5 amended: on every detection the appended detail's `Fragment` is
`whereText` — the clause's original source text, or the fixed placeholder
when that text is empty, never the empty string — and its `Length` is the
UTF-8 byte count of `whereText` (which equals the character count only when
`whereText` is ASCII). -/
theorem detail_fragment_and_length (w : WhereClause) (pos : Nat)
    (r : DetectionResult) (ht : isTautologyCondition w.cond = true) :
    ∃ d : InjectionDetail,
      (analyzeSelectStmt { Where := some w, OriginTextPosition := pos } r).Details
        = r.Details ++ [d]
      ∧ d.Fragment = whereTextOf w
      ∧ d.Fragment ≠ ""
      ∧ d.Length = (whereTextOf w).utf8ByteSize
      ∧ whereTextOf w =
          (if w.OriginalText = "" then "WHERE clause with tautology condition"
           else w.OriginalText) := by
  refine ⟨detailFor { Where := some w, OriginTextPosition := pos } w,
    ?_, rfl, ?_, rfl, rfl⟩
  · rw [analyzeSelectStmt_some w { Where := some w, OriginTextPosition := pos } r rfl]
    simp [ht]
  · show whereTextOf w ≠ ""
    unfold whereTextOf
    split_ifs with h
    · decide
    · exact h

/-- Witness for the amended C5 at the concrete clause `c4Where`. -/
theorem detail_fragment_and_length_witness :
    ∃ d : InjectionDetail,
      (analyzeSelectStmt { Where := some c4Where, OriginTextPosition := 0 }
        emptyDetectionResult).Details = emptyDetectionResult.Details ++ [d]
      ∧ d.Fragment = whereTextOf c4Where
      ∧ d.Fragment ≠ ""
      ∧ d.Length = (whereTextOf c4Where).utf8ByteSize
      ∧ whereTextOf c4Where =
          (if c4Where.OriginalText = "" then "WHERE clause with tautology condition"
           else c4Where.OriginalText) :=
  detail_fragment_and_length c4Where 0 emptyDetectionResult (by decide)

/-- A tautological `WHERE` clause whose recoverable source text is empty. -/
def emptyTextWhere : WhereClause :=
  { cond := oneEqOne, OriginalText := "", OriginTextPosition := 11 }

/-- C10: when the clause's recoverable source text is empty, the substituted
placeholder used for both the `Fragment` and the `Length` computation is
exactly the string `WHERE clause with tautology condition`. -/
theorem placeholder_fragment_exact (w : WhereClause) (pos : Nat)
    (r : DetectionResult) (hempty : w.OriginalText = "")
    (ht : isTautologyCondition w.cond = true) :
    ∃ d : InjectionDetail,
      (analyzeSelectStmt { Where := some w, OriginTextPosition := pos } r).Details
        = r.Details ++ [d]
      ∧ d.Fragment = "WHERE clause with tautology condition"
      ∧ d.Length = "WHERE clause with tautology condition".utf8ByteSize := by
  refine ⟨detailFor { Where := some w, OriginTextPosition := pos } w, ?_, ?_, ?_⟩
  · rw [analyzeSelectStmt_some w { Where := some w, OriginTextPosition := pos } r rfl]
    simp [ht]
  · simp [detailFor, whereTextOf, hempty]
  · simp [detailFor, whereTextOf, hempty]

/-- Witness for C10 at the concrete clause `emptyTextWhere`. -/
theorem placeholder_fragment_exact_witness :
    ∃ d : InjectionDetail,
      (analyzeSelectStmt { Where := some emptyTextWhere, OriginTextPosition := 2 }
        emptyDetectionResult).Details = emptyDetectionResult.Details ++ [d]
      ∧ d.Fragment = "WHERE clause with tautology condition"
      ∧ d.Length = "WHERE clause with tautology condition".utf8ByteSize :=
  placeholder_fragment_exact emptyTextWhere 2 emptyDetectionResult rfl (by decide)

end SqlExec
